import Mathlib

/-!
# Verification of the pytoyoda trip-summary aggregation, dashboard views,
# token lifecycle and lock-status logic

Shallow embedding of the relevant parts of the `pytoyoda` library:

* `pytoyoda/models/endpoints/trips.py` — `_SummaryBaseModel.__add__`,
  `_HDCModel.__add__`, the histogram / monthly summary records;
* `pytoyoda/models/vehicle.py` — `_generate_weekly_summaries`,
  `_generate_yearly_summaries`;
* `pytoyoda/models/dashboard.py` — `Dashboard.fuel_range`,
  `Dashboard.battery_range`;
* `pytoyoda/controller.py` — `Controller._update_token`,
  `Controller._perform_authentication`;
* `pytoyoda/models/lock_status.py` — `StatusHelper.get_status`, `Door.locked`.

Python floats are modelled by `ℚ` (the computations at issue are sums,
maxima, halving and linear unit conversion, all exact in the inputs
considered), Python ints by `ℤ`, and `None` by `Option`.
-/

/-- Modelled from the spec: `pytoyoda/utils/helpers.py` (not under `src/`)
provides `add_with_none`, which "adds treating None as a neutral/absent
operand (if both None, result None; else sum of present values)".  It is
used generically; here it is specialised per call site via this `Option`
combinator over an arbitrary combining operation. -/
def addWithNone {α : Type} (f : α → α → α) : Option α → Option α → Option α
  | none, that => that
  | some this_, none => some this_
  | some this_, some that => some (f this_ that)

/-- `_SummaryBaseModel` from `pytoyoda/models/endpoints/trips.py`.

The Python fields are all `Optional`; `__add__` applies `+`, `max` and `/`
directly to them, so it is only defined (does not raise `TypeError`) when
both operands have non-`None` values in every field except
`fuel_consumption`, which goes through `add_with_none`.  The embedding
therefore carries the non-`None` payloads directly, and `fuel_consumption`
as an `Option`. -/
structure SummaryData where
  length : Int
  duration : Int
  duration_idle : Int
  countries : List String
  max_speed : ℚ
  average_speed : ℚ
  length_overspeed : Int
  duration_overspeed : Int
  length_highway : Int
  duration_highway : Int
  fuel_consumption : Option ℚ
deriving Repr, DecidableEq

/-- `self.countries.extend(x for x in other.countries if x not in self.countries)`:
CPython evaluates the generator lazily while extending, so membership is
checked against the growing list — duplicates within `other` are appended
at most once. -/
def countriesExtend (self_ other : List String) : List String :=
  other.foldl (fun acc x => if x ∈ acc then acc else acc ++ [x]) self_

/-- `_SummaryBaseModel.__add__` (value semantics): the in-place update that
`self += other` performs on `self`'s field values.  (`other is not None`
holds at every aggregation call site embedded below.) -/
def sAdd (self_ other : SummaryData) : SummaryData :=
  { length := self_.length + other.length
    duration := self_.duration + other.duration
    duration_idle := self_.duration_idle + other.duration_idle
    countries := countriesExtend self_.countries other.countries
    max_speed := max self_.max_speed other.max_speed
    average_speed := (self_.average_speed + other.average_speed) / 2
    length_overspeed := self_.length_overspeed + other.length_overspeed
    duration_overspeed := self_.duration_overspeed + other.duration_overspeed
    length_highway := self_.length_highway + other.length_highway
    duration_highway := self_.duration_highway + other.duration_highway
    fuel_consumption :=
      addWithNone (· + ·) self_.fuel_consumption other.fuel_consumption }

/-- `_HDCModel` from `pytoyoda/models/endpoints/trips.py`: every field is
`Optional[int]` and `__add__` combines each with `add_with_none`. -/
structure HdcData where
  ev_time : Option Int
  ev_distance : Option Int
  charge_time : Option Int
  charge_dist : Option Int
  eco_time : Option Int
  eco_dist : Option Int
  power_time : Option Int
  power_dist : Option Int
deriving Repr, DecidableEq

/-- `_HDCModel.__add__` (value semantics of `self + other` for non-`None`
`other`). -/
def hdcAdd (self_ other : HdcData) : HdcData :=
  { ev_time := addWithNone (· + ·) self_.ev_time other.ev_time
    ev_distance := addWithNone (· + ·) self_.ev_distance other.ev_distance
    charge_time := addWithNone (· + ·) self_.charge_time other.charge_time
    charge_dist := addWithNone (· + ·) self_.charge_dist other.charge_dist
    eco_time := addWithNone (· + ·) self_.eco_time other.eco_time
    eco_dist := addWithNone (· + ·) self_.eco_dist other.eco_dist
    power_time := addWithNone (· + ·) self_.power_time other.power_time
    power_dist := addWithNone (· + ·) self_.power_dist other.power_dist }

/-- The net effect on `build_hdc` of the statement
`add_with_none(build_hdc, histogram.hdc)` in `vehicle.py` (lines 628 and
690): the *return value* of `add_with_none` is discarded, so the
accumulator only changes through the in-place mutation done by
`_HDCModel.__add__` — which runs exactly when both operands are
non-`None`.  A `None` accumulator therefore stays `None` even when the
histogram carries HDC data. -/
def hdcAccum (build : Option HdcData) (other : Option HdcData) : Option HdcData :=
  match build, other with
  | some b, some o => some (hdcAdd b o)
  | some b, none => some b
  | none, _ => none

/-- A calendar date as the Python `datetime.date(year, month, day)` triple.
Python `date` objects compare by the `(year, month, day)` tuple. -/
structure DateT where
  year : Int
  month : Int
  day : Int
deriving Repr, DecidableEq

/-- Python `date` comparison (`≤`): lexicographic on `(year, month, day)`. -/
def dateLe (a b : DateT) : Prop :=
  a.year < b.year ∨
    (a.year = b.year ∧
      (a.month < b.month ∨ (a.month = b.month ∧ a.day ≤ b.day)))

instance : DecidableRel dateLe := fun a b => by
  unfold dateLe; infer_instance

/-- `min(to_date, …)` on Python dates. -/
def dateMin (a b : DateT) : DateT := if dateLe a b then a else b

/-- Days since 1970-01-01 of a (valid) civil date — the standard
`days_from_civil` computation, used to talk about consecutive days and
week boundaries.  All divisions are Euclidean (`Int./`), which agrees with
the usual formulation on the inputs of interest. -/
def daysFromCivil (y m d : Int) : Int :=
  let y' := if m ≤ 2 then y - 1 else y
  let era := (if 0 ≤ y' then y' else y' - 399) / 400
  let yoe := y' - era * 400
  let doy := (153 * (if 2 < m then m - 3 else m + 9) + 2) / 5 + d - 1
  let doe := yoe * 365 + yoe / 4 - yoe / 100 + doy
  era * 146097 + doe - 719468

/-- Day number of a `DateT`. -/
def DateT.dayNumber (d : DateT) : Int := daysFromCivil d.year d.month d.day

/-- Monday-floor on day numbers: day 0 (1970-01-01) was a Thursday, so the
weekday index with Monday = 0 is `(n + 3) % 7`, and the Monday that begins
`n`'s week is `n - ((n + 3) % 7)`.  This models
`Arrow(h.year, h.month, h.day).span("week")[0]` (Arrow weeks begin on
Monday), the grouping key of `_generate_weekly_summaries`. -/
def floorMonday (n : Int) : Int := n - (n + 3) % 7

/-- `_HistogramModel`: one day's record `{year, month, day, summary, hdc}`.
The summary payload type is a parameter so that the same record shape can
carry either value-level or store-level summaries. -/
structure Hist (σ : Type) where
  year : Int
  month : Int
  day : Int
  summary : σ
  hdc : Option HdcData
deriving Repr, DecidableEq

/-- The `date(day=h.day, month=h.month, year=h.year)` built from a
histogram record (sort key and output window boundary in `vehicle.py`). -/
def Hist.date {σ : Type} (h : Hist σ) : DateT := ⟨h.year, h.month, h.day⟩

/-- `_SummaryItemModel`: one month's record
`{year, month, summary, hdc, histograms}`. -/
structure MonthRec (σ : Type) where
  year : Int
  month : Int
  summary : σ
  hdc : Option HdcData
  histograms : List (Hist σ)
deriving Repr, DecidableEq

/-- Sort order of `summary.sort(key=attrgetter("year", "month"))`:
lexicographic on `(year, month)`. -/
def monthLe {σ : Type} (a b : MonthRec σ) : Prop :=
  a.year < b.year ∨ (a.year = b.year ∧ a.month ≤ b.month)

instance {σ : Type} : DecidableRel (@monthLe σ) := fun a b => by
  unfold monthLe; infer_instance

/-- Sort order of
`histograms.sort(key=lambda h: date(day=h.day, month=h.month, year=h.year))`:
Python `date` order, i.e. lexicographic on `(year, month, day)`. -/
def histLe {σ : Type} (a b : Hist σ) : Prop := dateLe a.date b.date

instance {σ : Type} : DecidableRel (@histLe σ) := fun a b => by
  unfold histLe; infer_instance

/-- Helper for `groupRuns`: `a` is the first element of the current run,
`acc` the (reversed) rest of the run collected so far.  A new run starts
when an element's key differs; since the key comparison is equality, this
coincides with `itertools.groupby`'s previous-element comparison. -/
def groupRunsAux {α κ : Type} [DecidableEq κ] (key : α → κ) :
    List α → α → List α → List (α × List α)
  | [], a, acc => [(a, acc.reverse)]
  | x :: xs, a, acc =>
    if key x = key a then groupRunsAux key xs a (x :: acc)
    else (a, acc.reverse) :: groupRunsAux key xs x []

/-- `itertools.groupby(l, key)`: splits a list into maximal runs of
consecutive elements sharing a key, each run as (first element, rest of
run).  (Runs are non-empty by construction.) -/
def groupRuns {α κ : Type} [DecidableEq κ] (key : α → κ) :
    List α → List (α × List α)
  | [] => []
  | a :: rest => groupRunsAux key rest a []

/-- Modelled from the spec: the `Summary` result record
(`pytoyoda/models/summary.py`, not under `src/`) — "the merged Summary
Record" together with the metric flag, "the range of dates that made up"
the group window, and the accumulated HDC record, exactly the five
constructor arguments passed at each `ret.append(Summary(...))` site in
`vehicle.py`. -/
structure SummaryOut where
  summary : SummaryData
  metric : Bool
  start_date : DateT
  end_date : DateT
  hdc : Option HdcData
deriving Repr, DecidableEq

/-- The body of the per-week loop of
`Vehicle._generate_weekly_summaries` (vehicle.py lines 618-644), value
semantics: `build_summary`/`build_hdc` start as copies of the first
histogram's payload and are folded left-to-right over the rest of the
group, and the `Summary` window runs from the first to the last day of
the group. -/
def weekGroupSummary (metric : Bool) (h0 : Hist SummaryData)
    (run : List (Hist SummaryData)) : SummaryOut :=
  { summary := run.foldl (fun acc h => sAdd acc h.summary) h0.summary
    metric := metric
    start_date := h0.date
    end_date := ((h0 :: run).getLast (List.cons_ne_nil h0 run)).date
    hdc := run.foldl (fun acc h => hdcAccum acc h.hdc) h0.hdc }

/-- `Vehicle._generate_weekly_summaries` (vehicle.py lines 606-646):
sort the monthly records by `(year, month)`, flatten their histograms,
sort those by date, group by the Monday beginning each day's week, and
fold each group. -/
def generateWeeklySummaries (metric : Bool)
    (summary : List (MonthRec SummaryData)) : List SummaryOut :=
  let sorted := List.insertionSort monthLe summary
  let histograms := (sorted.map MonthRec.histograms).flatten
  let histograms := List.insertionSort histLe histograms
  (groupRuns (fun h => floorMonday h.date.dayNumber) histograms).map
    (fun p => weekGroupSummary metric p.1 p.2)

/-- The `for month, next_month in zip(summary[1:], summary[2:] + [None])`
loop of `Vehicle._generate_yearly_summaries` (vehicle.py lines 686-707),
value semantics.  State: the running `build_summary` / `build_hdc` /
`start_date`; the list argument is the remaining `summary[1:]` tail, whose
head is the current `month` and whose second element (when present) is
`next_month`.  A year group is emitted after folding in `month` whenever
`next_month is None or next_month.year != month.year`, with end date
`min(to_date, date(31, 12, month.year))`; on a year change the
accumulators restart from copies of `next_month`'s payload — but the loop
then *also* folds `next_month` in as the next `month`. -/
def yearlyLoop (metric : Bool) (toDate : DateT) :
    SummaryData → Option HdcData → DateT → List (MonthRec SummaryData) →
      List SummaryOut
  | _, _, _, [] => []
  | build, bhdc, start, m :: rest =>
    let bhdc' := hdcAccum bhdc m.hdc
    let build' := sAdd build m.summary
    match rest with
    | [] =>
      [⟨build', metric, start, dateMin toDate ⟨m.year, 12, 31⟩, bhdc'⟩]
    | next :: _ =>
      if next.year ≠ m.year then
        ⟨build', metric, start, dateMin toDate ⟨m.year, 12, 31⟩, bhdc'⟩ ::
          yearlyLoop metric toDate next.summary next.hdc
            ⟨next.year, next.month, 1⟩ rest
      else
        yearlyLoop metric toDate build' bhdc' start rest

/-- `Vehicle._generate_yearly_summaries` (vehicle.py lines 674-709).
The empty-input case is unreachable: `get_summary` returns `[]` before
calling the generator when the payload summary list is empty (line 397). -/
def generateYearlySummaries (metric : Bool)
    (summary : List (MonthRec SummaryData)) (toDate : DateT) :
    List SummaryOut :=
  let sorted := List.insertionSort monthLe summary
  match sorted with
  | [] => []
  | m0 :: rest =>
    let start : DateT := ⟨m0.year, m0.month, 1⟩
    match rest with
    | [] => [⟨m0.summary, metric, start, toDate, m0.hdc⟩]
    | _ :: _ => yearlyLoop metric toDate m0.summary m0.hdc start rest

/-! ## Store-level model of the weekly fold

`copy.copy` on a pydantic model is a *shallow* copy: the new model's
fields are the same objects as the original's.  The numeric fields are
immutable, but `countries` is a mutable Python list, and
`_SummaryBaseModel.__add__` mutates it in place
(`self.countries.extend(...)`).  To reason about that aliasing, the
store-level model gives every `countries` list an object id into an
explicit store. -/

/-- The heap of Python list objects backing the `countries` fields:
object id ↦ current list contents. -/
abbrev CStore := List (List String)

/-- Dereference a list object id. -/
def storeGet (st : CStore) (r : Nat) : List String := st.getD r []

/-- Overwrite a list object in place. -/
def storeSet (st : CStore) (r : Nat) (v : List String) : CStore := st.set r v

/-- `_SummaryBaseModel` with its `countries` field as a reference to a
list object in the store.  `copy.copy(model)` yields a model with the
same field objects — the same `countriesRef` — so the shallow copy is the
identity on this representation. -/
structure SummaryRef where
  length : Int
  duration : Int
  duration_idle : Int
  countriesRef : Nat
  max_speed : ℚ
  average_speed : ℚ
  length_overspeed : Int
  duration_overspeed : Int
  length_highway : Int
  duration_highway : Int
  fuel_consumption : Option ℚ
deriving Repr, DecidableEq

/-- `_SummaryBaseModel.__add__` at the store level: the numeric fields of
`self` are rebound to the combined values, while
`self.countries.extend(x for x in other.countries if x not in self.countries)`
mutates the list object `self.countriesRef` *inside the store*. -/
def sAddRef (st : CStore) (self_ other : SummaryRef) : CStore × SummaryRef :=
  let selfC := storeGet st self_.countriesRef
  let otherC := storeGet st other.countriesRef
  let st' := storeSet st self_.countriesRef (countriesExtend selfC otherC)
  (st',
    { length := self_.length + other.length
      duration := self_.duration + other.duration
      duration_idle := self_.duration_idle + other.duration_idle
      countriesRef := self_.countriesRef
      max_speed := max self_.max_speed other.max_speed
      average_speed := (self_.average_speed + other.average_speed) / 2
      length_overspeed := self_.length_overspeed + other.length_overspeed
      duration_overspeed := self_.duration_overspeed + other.duration_overspeed
      length_highway := self_.length_highway + other.length_highway
      duration_highway := self_.duration_highway + other.duration_highway
      fuel_consumption :=
        addWithNone (· + ·) self_.fuel_consumption other.fuel_consumption })

/-- The `Summary` result record at the store level (same shape as
`SummaryOut`, carrying the reference-level summary). -/
structure SummaryOutRef where
  summary : SummaryRef
  metric : Bool
  start_date : DateT
  end_date : DateT
  hdc : Option HdcData
deriving Repr, DecidableEq

/-- Per-week loop body of `Vehicle._generate_weekly_summaries` at the
store level: `build_summary = copy.copy(week_histograms[0].summary)`
keeps the first record's `countriesRef`, and each
`build_summary += histogram.summary` threads the store through
`sAddRef`. -/
def weekGroupSummaryStore (metric : Bool) (st : CStore)
    (h0 : Hist SummaryRef) (run : List (Hist SummaryRef)) :
    CStore × SummaryOutRef :=
  let stBuild := run.foldl
    (fun (acc : CStore × SummaryRef) h => sAddRef acc.1 acc.2 h.summary)
    (st, h0.summary)
  (stBuild.1,
    { summary := stBuild.2
      metric := metric
      start_date := h0.date
      end_date := ((h0 :: run).getLast (List.cons_ne_nil h0 run)).date
      hdc := run.foldl (fun acc h => hdcAccum acc h.hdc) h0.hdc })

/-- `Vehicle._generate_weekly_summaries` at the store level: identical
sorting, flattening and week grouping as the value-level embedding, with
the store threaded through every group fold. -/
def generateWeeklySummariesStore (metric : Bool) (st : CStore)
    (summary : List (MonthRec SummaryRef)) : CStore × List SummaryOutRef :=
  let sorted := List.insertionSort monthLe summary
  let histograms := (sorted.map MonthRec.histograms).flatten
  let histograms := List.insertionSort histLe histograms
  (groupRuns (fun h => floorMonday h.date.dayNumber) histograms).foldl
    (fun (acc : CStore × List SummaryOutRef) p =>
      let next := weekGroupSummaryStore metric acc.1 p.1 p.2
      (next.1, acc.2 ++ [next.2]))
    (st, [])

/-! ## Dashboard derived views (`pytoyoda/models/dashboard.py`) -/

/-- Modelled from the spec: the two recognized distance unit symbols of
`pytoyoda/utils/conversions.py` / `pytoyoda/const.py` (not under `src/`);
any other symbol makes the converter raise `UnsupportedUnitError` and is
outside this model. -/
inductive DistUnit
  | km
  | mi
deriving Repr, DecidableEq

/-- Modelled from the spec: the "fixed linear ratio (kilometers↔miles)"
of the conversion function.  The spec fixes no numeric value; nothing
proved below depends on it beyond it being a fixed positive rational. -/
def kmPerMile : ℚ := 160934 / 100000

/-- Modelled from the spec: `convert(target_unit, source_unit, value)`
from `pytoyoda/utils/conversions.py` (not under `src/`): "When target ==
source, returns value unchanged.  Otherwise applies a fixed linear ratio
(kilometers↔miles).  No rounding is specified beyond native
floating-point precision." -/
def convert_distance (target source : DistUnit) (v : ℚ) : ℚ :=
  if target = source then v
  else if target = DistUnit.km then v * kmPerMile
  else v / kmPerMile

/-- `UnitValueModel`: a `{value, unit}` pair, both optional. -/
structure UnitValue where
  value : Option ℚ
  unit : Option DistUnit
deriving Repr, DecidableEq

/-- `TelemetryModel` (`pytoyoda/models/endpoints/telemetry.py`), the
fields `Dashboard` reads. -/
structure TelemetryM where
  fuel_level : Option Int
  battery_level : Option Int
  odometer : Option UnitValue
  distance_to_empty : Option UnitValue
deriving Repr, DecidableEq

/-- `ElectricStatusModel` (`pytoyoda/models/endpoints/electric.py`), the
fields `Dashboard` reads. -/
structure ElectricM where
  battery_level : Option Int
  ev_range : Option UnitValue
  ev_range_with_ac : Option UnitValue
  fuel_range : Option UnitValue
deriving Repr, DecidableEq

/-- The `Dashboard` state after `__init__`: `self._telemetry` /
`self._electric` are the payloads (or `None`), and `self._distance_unit`
is determined by the metric flag. -/
structure DashboardM where
  telemetry : Option TelemetryM
  electric : Option ElectricM
  metric : Bool
deriving Repr, DecidableEq

/-- `self._distance_unit = KILOMETERS_UNIT if metric else MILES_UNIT`. -/
def distanceUnitOf (metric : Bool) : DistUnit :=
  if metric then DistUnit.km else DistUnit.mi

/-- The first block of `Dashboard.fuel_range` (dashboard.py lines
141-149): the electric endpoint's `fuel_range`, converted, provided the
endpoint, the field, its unit and its value are all present; otherwise
control falls through. -/
def fuelRangeFromElectric (du : DistUnit) (electric : Option ElectricM) :
    Option ℚ :=
  match electric with
  | none => none
  | some e =>
    match e.fuel_range with
    | none => none
    | some r =>
      match r.unit, r.value with
      | some u, some v => some (convert_distance du u v)
      | _, _ => none

/-- `Dashboard.fuel_range` (dashboard.py lines 131-165): prefer the
electric endpoint's fuel range; otherwise fall back to telemetry's
`distance_to_empty` — but only when `telemetry.battery_level is None`
("fuel-only vehicles only"); else `None`. -/
def DashboardM.fuel_range (d : DashboardM) : Option ℚ :=
  let du := distanceUnitOf d.metric
  match fuelRangeFromElectric du d.electric with
  | some x => some x
  | none =>
    match d.telemetry with
    | none => none
    | some t =>
      match t.distance_to_empty with
      | none => none
      | some dte =>
        match dte.unit, dte.value with
        | some u, some v =>
          if t.battery_level = none then some (convert_distance du u v)
          else none
        | _, _ => none

/-- The first block of `Dashboard.battery_range` (dashboard.py lines
191-199): the electric endpoint's `ev_range`, converted, provided the
endpoint, the field, its unit and its value are all present; otherwise
control falls through. -/
def batteryRangeFromElectric (du : DistUnit) (electric : Option ElectricM) :
    Option ℚ :=
  match electric with
  | none => none
  | some e =>
    match e.ev_range with
    | none => none
    | some r =>
      match r.unit, r.value with
      | some u, some v => some (convert_distance du u v)
      | _, _ => none

/-- `Dashboard.battery_range` (dashboard.py lines 180-216): prefer the
electric endpoint's explicit `ev_range`; otherwise fall back to
telemetry's `distance_to_empty` — but only when
`telemetry.battery_level is not None` (hybrid/EV heuristic); else
`None`. -/
def DashboardM.battery_range (d : DashboardM) : Option ℚ :=
  let du := distanceUnitOf d.metric
  match batteryRangeFromElectric du d.electric with
  | some x => some x
  | none =>
    match d.telemetry with
    | none => none
    | some t =>
      match t.battery_level with
      | none => none
      | some _ =>
        match t.distance_to_empty with
        | none => none
        | some dte =>
          match dte.unit, dte.value with
          | some u, some v => some (convert_distance du u v)
          | _, _ => none

/-! ## Token lifecycle (`pytoyoda/controller.py`) -/

/-- The observable authentication actions of `Controller._update_token`:
a call to `_refresh_tokens` or a call to `_authenticate`. -/
inductive AuthEvent
  | refreshAttempt
  | fullAuthAttempt
deriving Repr, DecidableEq

/-- Modelled from the spec: the error taxonomy of
`pytoyoda/exceptions.py` (not under `src/`) — `LoginError`,
`InvalidUsernameError`, `ApiError`, `InternalError` are distinct classes;
"`ensure_valid()` catches `LoginError` from a refresh attempt …; it does
not catch `InvalidUsernameError`". -/
inductive PyErr
  | loginError
  | invalidUsernameError
  | apiError
  | internalError
deriving Repr, DecidableEq

/-- The outcome of one network call: it returns, or raises an error. -/
inductive CallOutcome
  | success
  | raises (e : PyErr)
deriving Repr, DecidableEq

/-- `Controller._update_token` (controller.py lines 115-133), with the
token-validity state and the outcomes of the (at most one) refresh call
and the (at most one) full-authentication call as oracle inputs.  Result:
the sequence of calls performed and the error propagated to the caller,
if any.  The `try`/`except ToyotaLoginError` around `_refresh_tokens`
catches exactly the login-class error; any other error propagates without
a fallback. -/
def updateToken (tokenValid hasRefresh : Bool)
    (refresh auth : CallOutcome) : List AuthEvent × Option PyErr :=
  if tokenValid then ([], none)
  else if hasRefresh then
    match refresh with
    | CallOutcome.success => ([AuthEvent.refreshAttempt], none)
    | CallOutcome.raises PyErr.loginError =>
      match auth with
      | CallOutcome.success =>
        ([AuthEvent.refreshAttempt, AuthEvent.fullAuthAttempt], none)
      | CallOutcome.raises e =>
        ([AuthEvent.refreshAttempt, AuthEvent.fullAuthAttempt], some e)
    | CallOutcome.raises e => ([AuthEvent.refreshAttempt], some e)
  else
    match auth with
    | CallOutcome.success => ([AuthEvent.fullAuthAttempt], none)
    | CallOutcome.raises e => ([AuthEvent.fullAuthAttempt], some e)

/-- One callback entry of the handshake JSON, reduced to the fields the
loop inspects: `cb["type"]` and `cb["output"][0]["value"]`.  (The
`NameCallback`/`PasswordCallback` branches only fill `cb["input"]`, which
has no observable effect on the control flow modelled here.) -/
structure Callback where
  type : String
  outputValue : String
deriving Repr, DecidableEq

/-- One identity-provider response to a POST of the callback structure:
its HTTP status, its `callbacks` entry (absent or a list), and whether
`tokenId` is present. -/
structure AuthResponse where
  status : Nat
  callbacks : Option (List Callback)
  hasTokenId : Bool
deriving Repr, DecidableEq

/-- Whether iterating `for cb in data["callbacks"]` reaches a
`TextOutputCallback` whose output value is `"User Not Found"` (and hence
raises `ToyotaInvalidUsernameError`). -/
def hasUserNotFound (cbs : List Callback) : Bool :=
  cbs.any fun cb =>
    cb.type == "TextOutputCallback" && cb.outputValue == "User Not Found"

/-- `"callbacks" in data` guard plus the scan above. -/
def dataHasUNF : Option (List Callback) → Bool
  | some cbs => hasUserNotFound cbs
  | none => false

/-- How `Controller._perform_authentication` terminates. -/
inductive AuthResult
  | success
  | invalidUsername
  | loginErrorStatus
  | loginErrorExhausted
deriving Repr, DecidableEq

/-- The `for _ in range(10)` loop of `Controller._perform_authentication`
(controller.py lines 158-195).  `script r` is the server's response to
the `r`-th POST; `data` is the JSON carried into the round; `fuel` is the
number of loop iterations left.  Returns the outcome and the number of
POSTs performed. -/
def authGo (script : Nat → AuthResponse) :
    Option (List Callback) → Nat → Nat → AuthResult × Nat
  | _, r, 0 => (AuthResult.loginErrorExhausted, r)
  | data, r, fuel + 1 =>
    if dataHasUNF data then (AuthResult.invalidUsername, r)
    else
      let resp := script r
      if resp.status ≠ 200 then (AuthResult.loginErrorStatus, r + 1)
      else if resp.hasTokenId then (AuthResult.success, r + 1)
      else authGo script resp.callbacks (r + 1) fuel

/-- `Controller._perform_authentication`: the loop starts with
`data = {}` (no callbacks) and runs at most 10 rounds. -/
def performAuthentication (script : Nat → AuthResponse) : AuthResult × Nat :=
  authGo script none 0 10

/-! ## Lock status (`pytoyoda/models/lock_status.py`) -/

/-- `_ValueStatusModel` (`pytoyoda/models/endpoints/status.py`). -/
structure ValueStatus where
  value : Option String
  status : Option Int
deriving Repr, DecidableEq

/-- `SectionModel` (`pytoyoda/models/endpoints/status.py`); the Python
field `section` is spelled `section_` because `section` is a Lean
keyword. -/
structure SectionModel where
  section_ : Option String
  values : Option (List ValueStatus)
deriving Repr, DecidableEq

/-- Python truthiness of `data.values` in `if data and data.values:` —
`None` and the empty list are both falsy. -/
def valuesTruthy : Option (List ValueStatus) → Bool
  | none => false
  | some [] => false
  | some (_ :: _) => true

/-- `StatusHelper.get_status` (lock_status.py lines 46-55):
`item_status` is the first matching entry's `status` (or `None`); the
result is `None` when it is `None`, else `not bool(item_status)` — `true`
exactly when the stored int is 0. -/
def StatusHelper.get_status (data : Option SectionModel) (status : String) :
    Option Bool :=
  match data with
  | none => none
  | some d =>
    if valuesTruthy d.values then
      match (d.values.getD []).find? (fun item => item.value == some status) with
      | none => none
      | some item =>
        match item.status with
        | none => none
        | some s => some (s == 0)
    else none

/-- `Door.locked` (lock_status.py lines 86-94). -/
def Door.locked (data : Option SectionModel) : Option Bool :=
  if StatusHelper.get_status data "carstatus_locked" = some true then some true
  else if StatusHelper.get_status data "carstatus_unlocked" = some false then
    some false
  else none

/-! ## Theorems -/

/-- **C9.** For every door section (including the absent-section case),
the derived locked reading is `True` only if the section's explicit
"locked" flag reads true, `False` only if the explicit "unlocked" flag
reads false, and `None` otherwise; in particular, when neither flag is
present the result is `None`, never a defaulted boolean. -/
theorem door_locked_explicit_flags_only (data : Option SectionModel) :
    (Door.locked data = some true →
      StatusHelper.get_status data "carstatus_locked" = some true) ∧
    (Door.locked data = some false →
      StatusHelper.get_status data "carstatus_unlocked" = some false) ∧
    (StatusHelper.get_status data "carstatus_locked" ≠ some true →
      StatusHelper.get_status data "carstatus_unlocked" ≠ some false →
      Door.locked data = none) ∧
    Door.locked none = none := by
  unfold Door.locked
  refine ⟨?_, ?_, ?_, rfl⟩
  · split_ifs with h1 h2 <;> intro h <;> simp_all
  · split_ifs with h1 h2 <;> intro h <;> simp_all
  · intro h1 h2
    split_ifs <;> simp_all

/-- Witness for **C9** at a concrete input: a door with no section data
has an unknown (`None`) locked reading. -/
theorem door_locked_explicit_flags_only_witness :
    Door.locked none = none :=
  (door_locked_explicit_flags_only none).2.2.1 (by decide) (by decide)

/-- **C7.** With an expired token and a present refresh token whose
refresh attempt raises the login-class error, `_update_token` performs
exactly one refresh attempt followed by exactly one full
re-authentication attempt (whatever the latter's outcome); with a valid
token it performs no token update at all. -/
theorem update_token_single_fallback :
    (∀ auth : CallOutcome,
      (updateToken false true (CallOutcome.raises PyErr.loginError) auth).1 =
        [AuthEvent.refreshAttempt, AuthEvent.fullAuthAttempt]) ∧
    (∀ (hasRefresh : Bool) (refresh auth : CallOutcome),
      updateToken true hasRefresh refresh auth = ([], none)) := by
  constructor
  · intro auth
    cases auth <;> rfl
  · intro hasRefresh refresh auth
    rfl

/-- **C4.** When the electric endpoint reports `ev_range` with value `0`
and a non-`None` unit, and telemetry is fuel-only (`battery_level` is
`None`) with `distance_to_empty` present, `battery_range` returns the
converted zero — never the telemetry distance-to-empty value. -/
theorem battery_range_zero_not_absent (d : DashboardM) (e : ElectricM)
    (t : TelemetryM) (u du' : DistUnit) (dv : ℚ)
    (he : d.electric = some e)
    (hr : e.ev_range = some ⟨some 0, some u⟩)
    (ht : d.telemetry = some t)
    (hb : t.battery_level = none)
    (hd : t.distance_to_empty = some ⟨some dv, some du'⟩) :
    d.battery_range = some 0 := by
  have hconv : convert_distance (distanceUnitOf d.metric) u 0 = 0 := by
    unfold convert_distance
    split_ifs <;> simp
  simp only [DashboardM.battery_range, batteryRangeFromElectric, he, hr, ht,
    hb, hd, hconv]

/-- Witness for **C4**: a metric dashboard with `ev_range = 0 km` and
fuel-only telemetry reporting 326 km to empty yields `battery_range = 0`. -/
theorem battery_range_zero_not_absent_witness :
    DashboardM.battery_range
      ⟨some ⟨some 52, none, none, some ⟨some 326, some DistUnit.km⟩⟩,
       some ⟨none, some ⟨some 0, some DistUnit.km⟩, none, none⟩,
       true⟩ = some 0 :=
  battery_range_zero_not_absent _ _ _ DistUnit.km DistUnit.km 326
    rfl rfl rfl rfl rfl

/-- **C5 counterexample.** The claim fails as stated: a dashboard whose
telemetry has `distance_to_empty` present and `battery_level` non-`None`,
but whose electric endpoint also reports a usable `fuel_range` of 100 km,
gets `fuel_range = 100`, not `None`. -/
theorem fuel_range_hybrid_counterexample :
    DashboardM.fuel_range
        ⟨some ⟨some 52, some 30, none, some ⟨some 326, some DistUnit.km⟩⟩,
         some ⟨some 30, none, none, some ⟨some 100, some DistUnit.km⟩⟩,
         true⟩ = some 100 ∧
    DashboardM.fuel_range
        ⟨some ⟨some 52, some 30, none, some ⟨some 326, some DistUnit.km⟩⟩,
         some ⟨some 30, none, none, some ⟨some 100, some DistUnit.km⟩⟩,
         true⟩ ≠ none := by
  constructor <;> decide

/-- **C5 amended.** When telemetry's `distance_to_empty` is present
(value and unit non-`None`) and `telemetry.battery_level` is non-`None`,
and the electric endpoint supplies no usable fuel range (endpoint absent,
field absent, or missing unit/value), `fuel_range` returns `None`: the
fuel-only fallback is never applied to a hybrid/EV vehicle. -/
theorem fuel_range_hybrid_returns_none (d : DashboardM) (t : TelemetryM)
    (dv : ℚ) (u : DistUnit) (b : Int)
    (ht : d.telemetry = some t)
    (hd : t.distance_to_empty = some ⟨some dv, some u⟩)
    (hb : t.battery_level = some b)
    (hel : fuelRangeFromElectric (distanceUnitOf d.metric) d.electric = none) :
    d.fuel_range = none := by
  simp only [DashboardM.fuel_range, hel, ht, hd, hb]
  simp

/-- Witness for **C5 amended**: hybrid telemetry (battery level 30,
326 km to empty) with no electric endpoint yields `fuel_range = None`. -/
theorem fuel_range_hybrid_returns_none_witness :
    DashboardM.fuel_range
      ⟨some ⟨some 52, some 30, none, some ⟨some 326, some DistUnit.km⟩⟩,
       none, true⟩ = none :=
  fuel_range_hybrid_returns_none _ _ 326 DistUnit.km 30 rfl rfl rfl rfl

/-- **C3.** Merging Summary Records is associative in the additive fields
(length, duration, duration_idle, length_overspeed, duration_overspeed,
length_highway, duration_highway), but not associative in
`average_speed`, the plain pairwise mean: with average speeds 0, 0, 4 the
two association orders give 2 and 1. -/
theorem merge_assoc_additive_not_average_speed :
    (∀ a b c : SummaryData,
      (sAdd (sAdd a b) c).length = (sAdd a (sAdd b c)).length ∧
      (sAdd (sAdd a b) c).duration = (sAdd a (sAdd b c)).duration ∧
      (sAdd (sAdd a b) c).duration_idle = (sAdd a (sAdd b c)).duration_idle ∧
      (sAdd (sAdd a b) c).length_overspeed =
        (sAdd a (sAdd b c)).length_overspeed ∧
      (sAdd (sAdd a b) c).duration_overspeed =
        (sAdd a (sAdd b c)).duration_overspeed ∧
      (sAdd (sAdd a b) c).length_highway =
        (sAdd a (sAdd b c)).length_highway ∧
      (sAdd (sAdd a b) c).duration_highway =
        (sAdd a (sAdd b c)).duration_highway) ∧
    (sAdd (sAdd ⟨0, 0, 0, [], 0, 0, 0, 0, 0, 0, none⟩
        ⟨0, 0, 0, [], 0, 0, 0, 0, 0, 0, none⟩)
        ⟨0, 0, 0, [], 0, 4, 0, 0, 0, 0, none⟩).average_speed ≠
      (sAdd ⟨0, 0, 0, [], 0, 0, 0, 0, 0, 0, none⟩
        (sAdd ⟨0, 0, 0, [], 0, 0, 0, 0, 0, 0, none⟩
          ⟨0, 0, 0, [], 0, 4, 0, 0, 0, 0, none⟩)).average_speed := by
  constructor
  · intro a b c
    refine ⟨?_, ?_, ?_, ?_, ?_, ?_, ?_⟩ <;> simp [sAdd, add_assoc]
  · norm_num [sAdd]

/-- **C1 (evaluation of the code at the failing inputs).** First conjunct:
monthly records December 2023 and January 2024, aggregated yearly with
`to_date` 2024-01-31, produce a *single* Summary whose window runs from
2023-12-01 to 2024-01-31 and whose payload merges both months — months of
two different calendar years combined into one Summary (the loop never
compares the first record's year with the second's).  Second conjunct:
with records November 2024, December 2024 and January 2025, the 2025
group's Summary is `sAdd` of the January 2025 record *with itself* — the
first month of a later year group is folded in twice (after the reset the
loop revisits it). -/
theorem yearly_merges_across_years :
    generateYearlySummaries true
      [⟨2023, 12, ⟨100, 60, 6, ["DE"], 90, 50, 0, 0, 0, 0, none⟩, none, []⟩,
       ⟨2024, 1, ⟨200, 120, 12, ["FR"], 80, 40, 0, 0, 0, 0, none⟩, none, []⟩]
      ⟨2024, 1, 31⟩ =
      [⟨⟨300, 180, 18, ["DE", "FR"], 90, 45, 0, 0, 0, 0, none⟩, true,
        ⟨2023, 12, 1⟩, ⟨2024, 1, 31⟩, none⟩] ∧
    generateYearlySummaries true
      [⟨2024, 11, ⟨1, 1, 1, [], 10, 10, 0, 0, 0, 0, none⟩, none, []⟩,
       ⟨2024, 12, ⟨2, 2, 2, [], 20, 20, 0, 0, 0, 0, none⟩, none, []⟩,
       ⟨2025, 1, ⟨7, 7, 7, [], 30, 30, 0, 0, 0, 0, none⟩, none, []⟩]
      ⟨2025, 1, 31⟩ =
      [⟨⟨3, 3, 3, [], 20, 15, 0, 0, 0, 0, none⟩, true,
        ⟨2024, 11, 1⟩, ⟨2024, 12, 31⟩, none⟩,
       ⟨⟨14, 14, 14, [], 30, 30, 0, 0, 0, 0, none⟩, true,
        ⟨2025, 1, 1⟩, ⟨2025, 1, 31⟩, none⟩] := by
  constructor <;>
    (norm_num [generateYearlySummaries, List.insertionSort,
      List.orderedInsert, yearlyLoop, sAdd, countriesExtend, addWithNone,
      hdcAccum, dateMin, dateLe, monthLe] <;>
     decide)

/-- **C2 (evaluation of the code at the failing input).** Two daily
histograms in the same week (Monday 2023-01-02 and Tuesday 2023-01-03).
List object 0 backs the first histogram's `countries` (`["DE"]`), object 1
the second's (`["FR"]`), object 2 the month record's own summary.  After
weekly aggregation, object 0 — the countries list of the *input's first
histogram* — has become `["DE", "FR"]`: `copy.copy` shares the original's
`countries` list, so folding mutates the input record, contrary to the
claim that inputs are never mutated. -/
theorem weekly_mutates_input_countries :
    (generateWeeklySummariesStore true [["DE"], ["FR"], ["IT"]]
        [⟨2023, 1, ⟨0, 0, 0, 2, 0, 0, 0, 0, 0, 0, none⟩, none,
          [⟨2023, 1, 2, ⟨10, 60, 6, 0, 90, 50, 0, 0, 0, 0, none⟩, none⟩,
           ⟨2023, 1, 3, ⟨20, 120, 12, 1, 80, 40, 0, 0, 0, 0, none⟩,
             none⟩]⟩]).1 =
      [["DE", "FR"], ["FR"], ["IT"]] := by decide

/-- Collapsing a prefix of the current run: elements whose key matches the
run's first element are absorbed into the accumulator. -/
theorem groupRunsAux_absorb {α κ : Type} [DecidableEq κ] (key : α → κ) :
    ∀ (t rest : List α) (a : α) (acc : List α),
      (∀ x ∈ t, key x = key a) →
      groupRunsAux key (t ++ rest) a acc =
        groupRunsAux key rest a (t.reverse ++ acc) := by
  intro t
  induction t with
  | nil => intro rest a acc _; simp
  | cons x t ih =>
    intro rest a acc hkeys
    have hx : key x = key a := hkeys x (List.mem_cons_self x t)
    simp only [List.cons_append, groupRunsAux, if_pos hx, List.append_eq]
    rw [ih rest a (x :: acc) (fun y hy => hkeys y (List.mem_cons_of_mem x hy))]
    simp

/-- A run that exhausts the list produces a single group. -/
theorem groupRunsAux_last {α κ : Type} [DecidableEq κ] (key : α → κ) :
    ∀ (t : List α) (a : α) (acc : List α),
      (∀ x ∈ t, key x = key a) →
      groupRunsAux key t a acc = [(a, acc.reverse ++ t)] := by
  intro t
  induction t with
  | nil => intro a acc _; simp [groupRunsAux]
  | cons x t ih =>
    intro a acc hkeys
    have hx : key x = key a := hkeys x (List.mem_cons_self x t)
    simp only [groupRunsAux, if_pos hx]
    rw [ih a (x :: acc) (fun y hy => hkeys y (List.mem_cons_of_mem x hy))]
    simp

/-- A list made of two runs with different keys groups into exactly those
two runs. -/
theorem groupRuns_two_blocks {α κ : Type} [DecidableEq κ] (key : α → κ)
    (a b : α) (t1 t2 : List α)
    (hne : key b ≠ key a)
    (h1 : ∀ x ∈ t1, key x = key a)
    (h2 : ∀ x ∈ t2, key x = key b) :
    groupRuns key (a :: (t1 ++ b :: t2)) = [(a, t1), (b, t2)] := by
  simp only [groupRuns]
  rw [groupRunsAux_absorb key t1 (b :: t2) a [] h1]
  simp only [groupRunsAux, if_neg hne]
  rw [groupRunsAux_last key t2 b [] h2]
  simp

/-- Every member of `l.take k` sits at an index `< k` of `l`. -/
theorem mem_take_idx {α : Type} :
    ∀ (l : List α) (k : Nat) (x : α), x ∈ l.take k →
      ∃ i, ∃ hi : i < l.length, i < k ∧ l.get ⟨i, hi⟩ = x := by
  intro l
  induction l with
  | nil => intro k x hx; simp at hx
  | cons a t ih =>
    intro k x hx
    cases k with
    | zero => simp at hx
    | succ k =>
      simp only [List.take_succ_cons, List.mem_cons] at hx
      rcases hx with rfl | hx
      · exact ⟨0, by simp, by omega, rfl⟩
      · obtain ⟨i, hi, hik, hget⟩ := ih k x hx
        exact ⟨i + 1, by simp; omega, by omega, hget⟩

/-- Every member of `l.drop k` sits at an index `≥ k` of `l`. -/
theorem mem_drop_idx {α : Type} :
    ∀ (l : List α) (k : Nat) (x : α), x ∈ l.drop k →
      ∃ i, ∃ hi : i < l.length, k ≤ i ∧ l.get ⟨i, hi⟩ = x := by
  intro l
  induction l with
  | nil => intro k x hx; simp at hx
  | cons a t ih =>
    intro k x hx
    cases k with
    | zero =>
      obtain ⟨⟨i, hi⟩, hget⟩ := List.mem_iff_get.mp hx
      exact ⟨i, hi, Nat.zero_le i, hget⟩
    | succ k =>
      simp only [List.drop_succ_cons] at hx
      obtain ⟨i, hi, hik, hget⟩ := ih k x hx
      exact ⟨i + 1, by simp; omega, by omega, hget⟩

/-- Week-boundary arithmetic: among any eight consecutive day numbers
`n0, …, n0 + 7` there is exactly one Monday boundary, at an offset
`1 ≤ k ≤ 7`: the first `k` days share `n0`'s week-Monday and the rest lie
in the following week. -/
theorem floorMonday_week_split (n0 : Int) :
    ∃ k : Nat, 1 ≤ k ∧ k ≤ 7 ∧
      (∀ i : Nat, i < k → floorMonday (n0 + i) = floorMonday n0) ∧
      (∀ i : Nat, k ≤ i → i < 8 →
        floorMonday (n0 + i) = floorMonday n0 + 7) := by
  refine ⟨(7 - (n0 + 3) % 7).toNat, by omega, by omega, ?_, ?_⟩
  · intro i hik; unfold floorMonday; omega
  · intro i hki hi8; unfold floorMonday; omega

/-- A week group's contribution to the output list: empty groups
contribute nothing, a non-empty group contributes its fold. -/
def weekGroupOfList (metric : Bool) :
    List (Hist SummaryData) → List SummaryOut
  | [] => []
  | h :: t => [weekGroupSummary metric h t]

/-- **C6.** For every input of 8 consecutive daily histogram records
(monthly records pre-sorted by `(year, month)`, flattened histograms
pre-sorted by date, with day numbers increasing by exactly one), weekly
aggregation produces exactly the two Summaries obtained by folding the
two week groups — the first `k` days and the remaining `8 - k` days for
some `1 ≤ k ≤ 7` — left-to-right via the merge operation, with window
boundaries the first/last day of each group (`weekGroupSummary` sets
`start_date`/`end_date` to the group's first/last record's date); the two
groups lie in the same week internally and in different weeks from each
other. -/
theorem weekly_eight_consecutive_two_summaries (metric : Bool)
    (months : List (MonthRec SummaryData)) (hs : List (Hist SummaryData))
    (hm : List.Sorted monthLe months)
    (hflat : (months.map MonthRec.histograms).flatten = hs)
    (hlen : hs.length = 8)
    (hsorted : List.Sorted histLe hs)
    (hchain : List.Chain'
      (fun a b => a.date.dayNumber + 1 = b.date.dayNumber) hs) :
    ∃ k : Nat, 1 ≤ k ∧ k ≤ 7 ∧
      generateWeeklySummaries metric months =
        weekGroupOfList metric (hs.take k) ++
          weekGroupOfList metric (hs.drop k) ∧
      (∀ x ∈ hs.take k, ∀ y ∈ hs.take k,
        floorMonday x.date.dayNumber = floorMonday y.date.dayNumber) ∧
      (∀ x ∈ hs.drop k, ∀ y ∈ hs.drop k,
        floorMonday x.date.dayNumber = floorMonday y.date.dayNumber) ∧
      (∀ x ∈ hs.take k, ∀ y ∈ hs.drop k,
        floorMonday x.date.dayNumber ≠ floorMonday y.date.dayNumber) := by
  have h0 : 0 < hs.length := by omega
  have hcg := List.chain'_iff_get.mp hchain
  have hday : ∀ i, ∀ hi : i < hs.length,
      (hs.get ⟨i, hi⟩).date.dayNumber =
        (hs.get ⟨0, h0⟩).date.dayNumber + i := by
    intro i
    induction i with
    | zero => intro hi; simp
    | succ j ih =>
      intro hi
      have hj : j < hs.length := by omega
      have hstep := hcg j (by omega)
      have hjval := ih hj
      push_cast
      push_cast at hjval
      omega
  obtain ⟨k, hk1, hk7, hlow, hhigh⟩ :=
    floorMonday_week_split ((hs.get ⟨0, h0⟩).date.dayNumber)
  have hkey_take : ∀ x ∈ hs.take k, floorMonday x.date.dayNumber =
      floorMonday ((hs.get ⟨0, h0⟩).date.dayNumber) := by
    intro x hx
    obtain ⟨i, hi, hik, hget⟩ := mem_take_idx hs k x hx
    rw [← hget, hday i hi]
    exact hlow i hik
  have hkey_drop : ∀ x ∈ hs.drop k, floorMonday x.date.dayNumber =
      floorMonday ((hs.get ⟨0, h0⟩).date.dayNumber) + 7 := by
    intro x hx
    obtain ⟨i, hi, hki, hget⟩ := mem_drop_idx hs k x hx
    rw [← hget, hday i hi]
    exact hhigh i hki (by omega)
  obtain ⟨a, t1, hat1⟩ : ∃ a t1, hs.take k = a :: t1 := by
    cases hcase : hs.take k with
    | nil =>
      exfalso
      have hl0 : (hs.take k).length = 0 := by rw [hcase]; rfl
      rw [List.length_take] at hl0
      omega
    | cons a t1 => exact ⟨a, t1, rfl⟩
  obtain ⟨b, t2, hbt2⟩ : ∃ b t2, hs.drop k = b :: t2 := by
    cases hcase : hs.drop k with
    | nil =>
      exfalso
      have := congrArg List.length hcase
      simp [List.length_drop] at this
      omega
    | cons b t2 => exact ⟨b, t2, rfl⟩
  have hmem_a : a ∈ hs.take k := by rw [hat1]; exact List.mem_cons_self a t1
  have hmem_b : b ∈ hs.drop k := by rw [hbt2]; exact List.mem_cons_self b t2
  have hdecomp : hs = a :: (t1 ++ b :: t2) := by
    conv_lhs => rw [← List.take_append_drop k hs, hat1, hbt2]
    simp
  have hgroups : groupRuns (fun h => floorMonday h.date.dayNumber) hs =
      [(a, t1), (b, t2)] := by
    rw [hdecomp]
    apply groupRuns_two_blocks
    · rw [hkey_drop b hmem_b, hkey_take a hmem_a]
      omega
    · intro x hx
      rw [hkey_take x (by rw [hat1]; exact List.mem_cons_of_mem a hx),
        hkey_take a hmem_a]
    · intro x hx
      rw [hkey_drop x (by rw [hbt2]; exact List.mem_cons_of_mem b hx),
        hkey_drop b hmem_b]
  refine ⟨k, hk1, hk7, ?_, ?_, ?_, ?_⟩
  · have hlhs : generateWeeklySummaries metric months =
        (groupRuns (fun h => floorMonday h.date.dayNumber)
          (List.insertionSort histLe
            (((List.insertionSort monthLe months).map
              MonthRec.histograms).flatten))).map
          (fun p => weekGroupSummary metric p.1 p.2) := rfl
    rw [hlhs, List.Sorted.insertionSort_eq hm, hflat,
      List.Sorted.insertionSort_eq hsorted, hgroups, hat1, hbt2]
    rfl
  · intro x hx y hy
    rw [hkey_take x hx, hkey_take y hy]
  · intro x hx y hy
    rw [hkey_drop x hx, hkey_drop y hy]
  · intro x hx y hy
    rw [hkey_take x hx, hkey_drop y hy]
    omega

/-- Witness input: eight consecutive daily histograms, Thursday
2023-01-05 through Thursday 2023-01-12 (the week boundary is Monday
2023-01-09). -/
def wHists : List (Hist SummaryData) :=
  [⟨2023, 1, 5, ⟨1, 10, 1, [], 0, 0, 0, 0, 0, 0, none⟩, none⟩,
   ⟨2023, 1, 6, ⟨2, 10, 1, [], 0, 0, 0, 0, 0, 0, none⟩, none⟩,
   ⟨2023, 1, 7, ⟨3, 10, 1, [], 0, 0, 0, 0, 0, 0, none⟩, none⟩,
   ⟨2023, 1, 8, ⟨4, 10, 1, [], 0, 0, 0, 0, 0, 0, none⟩, none⟩,
   ⟨2023, 1, 9, ⟨5, 10, 1, [], 0, 0, 0, 0, 0, 0, none⟩, none⟩,
   ⟨2023, 1, 10, ⟨6, 10, 1, [], 0, 0, 0, 0, 0, 0, none⟩, none⟩,
   ⟨2023, 1, 11, ⟨7, 10, 1, [], 0, 0, 0, 0, 0, 0, none⟩, none⟩,
   ⟨2023, 1, 12, ⟨8, 10, 1, [], 0, 0, 0, 0, 0, 0, none⟩, none⟩]

/-- Witness input: the single January 2023 month record carrying
`wHists`. -/
def wMonths : List (MonthRec SummaryData) :=
  [⟨2023, 1, ⟨36, 80, 8, [], 0, 0, 0, 0, 0, 0, none⟩, none, wHists⟩]

/-- Witness for **C6** at the concrete eight-day window
2023-01-05 … 2023-01-12. -/
theorem weekly_eight_consecutive_two_summaries_witness :
    ∃ k : Nat, 1 ≤ k ∧ k ≤ 7 ∧
      generateWeeklySummaries true wMonths =
        weekGroupOfList true (wHists.take k) ++
          weekGroupOfList true (wHists.drop k) ∧
      (∀ x ∈ wHists.take k, ∀ y ∈ wHists.take k,
        floorMonday x.date.dayNumber = floorMonday y.date.dayNumber) ∧
      (∀ x ∈ wHists.drop k, ∀ y ∈ wHists.drop k,
        floorMonday x.date.dayNumber = floorMonday y.date.dayNumber) ∧
      (∀ x ∈ wHists.take k, ∀ y ∈ wHists.drop k,
        floorMonday x.date.dayNumber ≠ floorMonday y.date.dayNumber) :=
  weekly_eight_consecutive_two_summaries true wMonths wHists
    (List.sorted_singleton _) rfl rfl (by decide)
    (by
      simp only [wHists, List.chain'_cons, List.chain'_singleton, and_true]
      decide)

/-- **C8 counterexample.** The claim fails as stated for the final round:
a script whose first nine responses are clean (HTTP 200, empty callbacks,
no token) and whose *tenth* response carries the "User Not Found"
`TextOutputCallback` makes the loop exhaust its 10 rounds and raise the
generic login error — the tenth response's callbacks are never inspected,
so `InvalidUsernameError` is *not* raised. -/
theorem auth_unf_in_tenth_response_counterexample :
    performAuthentication
        (fun r =>
          if r = 9 then
            ⟨200, some [⟨"TextOutputCallback", "User Not Found"⟩], false⟩
          else ⟨200, some [], false⟩) =
      (AuthResult.loginErrorExhausted, 10) ∧
    (performAuthentication
        (fun r =>
          if r = 9 then
            ⟨200, some [⟨"TextOutputCallback", "User Not Found"⟩], false⟩
          else ⟨200, some [], false⟩)).1 ≠
      AuthResult.invalidUsername := by
  constructor <;> decide

/-- If the `j`-th response (for `j < k`) is clean and the `k`-th response
carries "User Not Found", the callback loop stops with
`InvalidUsernameError` right after the `(k+1)`-th POST, making no further
POST — provided enough rounds remain (`k + 2 ≤ fuel`). -/
theorem authGo_detects_unf (script : Nat → AuthResponse) :
    ∀ (k fuel r : Nat) (d0 : Option (List Callback)),
      dataHasUNF d0 = false →
      k + 2 ≤ fuel →
      (∀ j, j ≤ k → (script (r + j)).status = 200 ∧
        (script (r + j)).hasTokenId = false) →
      (∀ j, j < k → dataHasUNF (script (r + j)).callbacks = false) →
      dataHasUNF (script (r + k)).callbacks = true →
      authGo script d0 r fuel = (AuthResult.invalidUsername, r + k + 1) := by
  intro k
  induction k with
  | zero =>
    intro fuel r d0 hd0 hfuel hclean _ hunf
    obtain ⟨f, rfl⟩ : ∃ f, fuel = f + 2 := ⟨fuel - 2, by omega⟩
    have h200 := (hclean 0 (Nat.le_refl 0)).1
    have htok := (hclean 0 (Nat.le_refl 0)).2
    rw [Nat.add_zero] at h200 htok
    rw [Nat.add_zero] at hunf
    show authGo script d0 r (f + 1 + 1) = _
    rw [authGo]
    simp only [hd0, Bool.false_eq_true, if_false, h200, htok, ne_eq,
      not_true_eq_false, if_false, Bool.false_eq_true]
    rw [authGo]
    simp [hunf]
  | succ k ih =>
    intro fuel r d0 hd0 hfuel hclean hpre hunf
    obtain ⟨f, rfl⟩ : ∃ f, fuel = f + 1 := ⟨fuel - 1, by omega⟩
    have h200 := (hclean 0 (Nat.zero_le _)).1
    have htok := (hclean 0 (Nat.zero_le _)).2
    rw [Nat.add_zero] at h200 htok
    rw [authGo]
    simp only [hd0, Bool.false_eq_true, if_false, h200, htok, ne_eq,
      not_true_eq_false, if_false]
    have hres := ih f (r + 1) (script r).callbacks
      ?hpre0 (by omega) ?hclean ?hpre ?hunf
    case hpre0 =>
      have := hpre 0 (Nat.succ_pos k)
      rwa [Nat.add_zero] at this
    case hclean =>
      intro j hj
      have := hclean (j + 1) (by omega)
      rwa [show r + (j + 1) = r + 1 + j by omega] at this
    case hpre =>
      intro j hj
      have := hpre (j + 1) (by omega)
      rwa [show r + (j + 1) = r + 1 + j by omega] at this
    case hunf =>
      rwa [show r + (k + 1) = r + 1 + k by omega] at hunf
    rw [hres]
    congr 1
    omega

/-- **C8 amended.** For every handshake script in which response `k`, for
some `k ≤ 8` — i.e. any response the loop still has a round left to
inspect — carries a `TextOutputCallback` "User Not Found", while
responses `0 … k` are HTTP 200 without a `tokenId` and responses before
`k` carry no such callback, the controller raises `InvalidUsernameError`
immediately after the `(k+1)`-th POST, posting no further round.  (A
"User Not Found" arriving in the *tenth* response is never inspected —
see the counterexample.)  Moreover the error is never caught by the
`_update_token` refresh-failure fallback, which catches exactly the
login-class error: an `InvalidUsernameError`, whether raised by the
refresh attempt or by the fallback full authentication, propagates to
the caller. -/
theorem auth_user_not_found_fails_fast (script : Nat → AuthResponse)
    (k : Nat) (hk : k ≤ 8)
    (hclean : ∀ j, j ≤ k → (script j).status = 200 ∧
      (script j).hasTokenId = false)
    (hpre : ∀ j, j < k → dataHasUNF (script j).callbacks = false)
    (hunf : dataHasUNF (script k).callbacks = true) :
    performAuthentication script = (AuthResult.invalidUsername, k + 1) ∧
    (∀ auth : CallOutcome,
      updateToken false true
          (CallOutcome.raises PyErr.invalidUsernameError) auth =
        ([AuthEvent.refreshAttempt], some PyErr.invalidUsernameError)) ∧
    updateToken false true (CallOutcome.raises PyErr.loginError)
        (CallOutcome.raises PyErr.invalidUsernameError) =
      ([AuthEvent.refreshAttempt, AuthEvent.fullAuthAttempt],
        some PyErr.invalidUsernameError) := by
  refine ⟨?_, fun auth => rfl, rfl⟩
  have hres := authGo_detects_unf script k 10 0 none rfl (by omega)
    (fun j hj => by simpa using hclean j hj)
    (fun j hj => by simpa using hpre j hj)
    (by simpa using hunf)
  simpa [performAuthentication] using hres

/-- Witness for **C8 amended**: the second response reports
"User Not Found"; authentication stops with `InvalidUsernameError` after
the second POST. -/
theorem auth_user_not_found_fails_fast_witness :
    performAuthentication
        (fun r =>
          if r = 1 then
            ⟨200, some [⟨"TextOutputCallback", "User Not Found"⟩], false⟩
          else ⟨200, some [⟨"NameCallback", "User Name"⟩], false⟩) =
      (AuthResult.invalidUsername, 1 + 1) ∧
    (∀ auth : CallOutcome,
      updateToken false true
          (CallOutcome.raises PyErr.invalidUsernameError) auth =
        ([AuthEvent.refreshAttempt], some PyErr.invalidUsernameError)) ∧
    updateToken false true (CallOutcome.raises PyErr.loginError)
        (CallOutcome.raises PyErr.invalidUsernameError) =
      ([AuthEvent.refreshAttempt, AuthEvent.fullAuthAttempt],
        some PyErr.invalidUsernameError) :=
  auth_user_not_found_fails_fast _ 1 (by omega)
    (fun j hj => by interval_cases j <;> exact ⟨rfl, rfl⟩)
    (fun j hj => by interval_cases j <;> decide)
    (by decide)
